import Mathlib

/-!
# A shallow embedding of the neigh2route neighbor/route reconciliation daemon

This file models, in Lean, the Go sources of `hostinger/neigh2route`:

* the Go standard-library `net` helpers the daemon relies on
  (`IP.To4`, `IP.IsLinkLocalUnicast`, `IP.Equal`, `IP.String`,
  `HardwareAddr.String`),
* the netlink state/flag constants used by the daemon,
* the `NeighborManager` (package `neighbor`): `AddNeighbor`,
  `RemoveNeighbor`, `ListNeighbors`, `InitializeNeighborTable`,
  `processNeighborUpdate`, `Cleanup`, `isNeighborExternallyLearned`,
* the passive-discovery sniffer (package `sniffer`):
  `neighborAlreadyValid`, `addNeighborEntry`, `handlePacket`, and the
  interface-up wait loop of `sniffNAWithContext`,
* the read-only view construction of the HTTP `ListNeighborsHandler`.

External effects (netlink route calls, kernel neighbor writes) are made
explicit: store-mutating operations return, next to the new store, the
ordered trace of kernel calls they issue.  Fallible kernel calls whose
outcome influences control flow (`netutils.RemoveRoute` inside
`AddNeighbor`) are parametrised by an oracle telling whether the call
succeeds.
-/

namespace Neigh2Route

/-! ## Go standard library `net`: IP addresses as byte lists -/

/-- A Go `net.IP`: a byte slice, length 4 (IPv4) or 16 (IPv6) when
well-formed.  Bytes are `Nat`s below 256 for well-formed addresses. -/
abbrev IP := List Nat

/-- The 12-byte head `::ffff:` of an IPv4-mapped IPv6 address
(Go `v4InV6Prefix`). -/
def v4InV6 : List Nat := [0, 0, 0, 0, 0, 0, 0, 0, 0, 0, 0xff, 0xff]

/-- Go `net.IP.To4`: the 4-byte form of an address, `none` when the
address is not IPv4 or IPv4-mapped. -/
def to4 (ip : IP) : Option IP :=
  if ip.length = 4 then some ip
  else if ip.length = 16 ∧ ip.take 12 = v4InV6 then some (ip.drop 12)
  else none

/-- Go `net.IP.IsLinkLocalUnicast`: `169.254.0.0/16` for IPv4 (after
`To4` normalisation), `fe80::/10` for IPv6. -/
def isLinkLocalUnicast (ip : IP) : Bool :=
  match to4 ip with
  | some ip4 => ip4.getD 0 0 == 169 && ip4.getD 1 0 == 254
  | none => ip.length == 16 && ip.getD 0 0 == 0xfe && (ip.getD 1 0) &&& 0xc0 == 0x80

/-- Go `net.IP.Equal`: byte equality, with an IPv4 address equal to its
IPv4-mapped IPv6 form. -/
def ipEqual (ip x : IP) : Bool :=
  if ip.length = x.length then ip == x
  else if ip.length = 4 ∧ x.length = 16 then x.take 12 == v4InV6 && ip == x.drop 12
  else if ip.length = 16 ∧ x.length = 4 then ip.take 12 == v4InV6 && x == ip.drop 12
  else false

/-- Lower-case hexadecimal digit (Go `hexDigit` table). -/
def hexChar (n : Nat) : Char := "0123456789abcdef".data.getD n '0'

/-- Go `appendHex`: hexadecimal digits of a 16-bit group, no leading
zeros, `"0"` for zero. -/
def hexGroupChars (i : Nat) : List Char :=
  if i == 0 then ['0']
  else (List.range 8).reverse.filterMap fun j =>
    let v := i >>> (j * 4)
    if v > 0 then some (hexChar (v &&& 0xf)) else none

/-- Two-hex-digits-per-byte rendering (Go `hexString`, used for
malformed addresses). -/
def hexStringOf (bs : List Nat) : String :=
  ⟨bs.flatMap fun b => [hexChar (b >>> 4), hexChar (b &&& 0xf)]⟩

/-- The 16-bit group of an IPv6 address starting at byte offset `i`. -/
def v6Group (p : IP) (i : Nat) : Nat :=
  ((p.getD i 0) <<< 8) ||| p.getD (i + 1) 0

/-- Inner scan of Go `net.IP.String`'s zero-run search: the end (stepping
by 2) of the run of zero 16-bit groups starting at byte offset `j`. -/
def zeroRunEnd (p : IP) : Nat → Nat → Nat
  | 0, j => j
  | fuel + 1, j =>
    if j < 16 && p.getD j 1 == 0 && p.getD (j + 1) 1 == 0 then
      zeroRunEnd p fuel (j + 2)
    else j

/-- Outer scan of Go `net.IP.String`'s zero-run search: the best
(longest, leftmost) zero run, as `(e0, e1)`; `(0, 0)` encodes Go's
initial `e0 = e1 = -1` (length 0). -/
def zeroRunScan (p : IP) : Nat → Nat → (Nat × Nat) → (Nat × Nat)
  | 0, _, best => best
  | fuel + 1, i, best =>
    if i < 16 then
      let j := zeroRunEnd p 8 i
      if j > i ∧ j - i > best.2 - best.1 then zeroRunScan p fuel (j + 2) (i, j)
      else zeroRunScan p fuel (i + 2) best
    else best

/-- The zero run of `net.IP.String`'s `::` compression: `none` when the
best run spans at most one group (Go's `e1-e0 <= 2` reset). -/
def findZeroRun (p : IP) : Option (Nat × Nat) :=
  let best := zeroRunScan p 9 0 (0, 0)
  if best.2 - best.1 ≤ 2 then none else some best

/-- Group-printing loop of Go `net.IP.String` for IPv6: `::` at the
elided run, `:` between other groups. -/
def v6Chars (p : IP) (e0 e1 : Nat) (hasRun : Bool) : Nat → Nat → List Char
  | 0, _ => []
  | fuel + 1, i =>
    if i < 16 then
      if hasRun && i == e0 then
        ':' :: ':' ::
          (if e1 ≥ 16 then []
           else hexGroupChars (v6Group p e1) ++ v6Chars p e0 e1 hasRun fuel (e1 + 2))
      else
        (if i > 0 then [':'] else []) ++
          hexGroupChars (v6Group p i) ++ v6Chars p e0 e1 hasRun fuel (i + 2)
    else []

/-- Go `net.IP.String`: `"<nil>"` for the empty address, dotted decimal
for IPv4/IPv4-mapped, RFC-5952 hexadecimal with `::` compression for
IPv6, `"?"` plus raw hex for other lengths. -/
def ipString (ip : IP) : String :=
  if ip.length == 0 then "<nil>"
  else
    match to4 ip with
    | some p4 => String.intercalate "." (p4.map fun b => toString b)
    | none =>
      if ip.length ≠ 16 then "?" ++ hexStringOf ip
      else
        match findZeroRun ip with
        | some (e0, e1) => ⟨v6Chars ip e0 e1 true 9 0⟩
        | none => ⟨v6Chars ip 0 0 false 9 0⟩

/-- Go `net.HardwareAddr.String`: `""` for a nil/empty address, else
colon-separated lower-case hex byte pairs.  `none` models Go's nil
slice. -/
def hardwareAddrString (a : Option (List Nat)) : String :=
  match a with
  | none => ""
  | some bytes =>
    String.intercalate ":" (bytes.map fun b => ⟨[hexChar (b >>> 4), hexChar (b &&& 0xf)]⟩)

/-! ## netlink constants (vishvananda/netlink, Linux uapi values) -/

def NUD_REACHABLE : Nat := 0x02
def NUD_STALE : Nat := 0x04
def NUD_DELAY : Nat := 0x08
def NUD_PROBE : Nat := 0x10
def NUD_FAILED : Nat := 0x20
def NTF_EXT_LEARNED : Nat := 0x10
def FAMILY_V6 : Nat := 10

/-! ## Data model (`internal/neighbor` types) -/

/-- The `neighbor.Neighbor` value: IP, owning link index, optional
link-layer address (`none` models Go's nil `net.HardwareAddr`). -/
structure Neighbor where
  ip : IP
  linkIndex : Int
  hardwareAddr : Option (List Nat)
deriving Repr, DecidableEq

/-- The `reachableNeighbors` map of `NeighborManager`: an association
list from `ip.String()` keys to `Neighbor` values (Go map semantics;
keys are unique in any store built by the operations below). -/
abbrev Store := List (String × Neighbor)

/-- Go map read `m[k]`. -/
def lookupStore (s : Store) (k : String) : Option Neighbor :=
  match s with
  | [] => none
  | (k', v) :: rest => if k' == k then some v else lookupStore rest k

/-- Go map write `m[k] = v` (replace or append). -/
def insertStore (s : Store) (k : String) (v : Neighbor) : Store :=
  match s with
  | [] => [(k, v)]
  | (k', v') :: rest => if k' == k then (k, v) :: rest else (k', v') :: insertStore rest k v

/-- Go map delete `delete(m, k)`. -/
def eraseStore (s : Store) (k : String) : Store :=
  match s with
  | [] => []
  | (k', v') :: rest => if k' == k then rest else (k', v') :: eraseStore rest k

/-- Distinct keys, the invariant a Go map enjoys by construction. -/
def keysNodup (s : Store) : Prop := (s.map Prod.fst).Nodup

instance (s : Store) : Decidable (keysNodup s) := by
  unfold keysNodup; infer_instance

/-- A route-table call issued through `pkg/netutils`
(`AddRoute`/`RemoveRoute`). -/
inductive RouteOp where
  | add (ip : IP) (linkIndex : Int)
  | remove (ip : IP) (linkIndex : Int)
deriving Repr, DecidableEq

/-- The store after an operation, plus the ordered trace of route-table
calls the operation issued (attempted calls, whether or not they
succeeded in the kernel). -/
structure AddResult where
  store : Store
  ops : List RouteOp
deriving Repr, DecidableEq

/-! ## NeighborManager operations -/

/-- `Neighbor.LinkIndexChanged`. -/
def LinkIndexChanged (n : Neighbor) (linkIndex : Int) : Bool :=
  n.linkIndex != linkIndex

/-- `NeighborManager.AddNeighbor(ip, linkIndex)`.

`removeRouteOk` is the success oracle for `netutils.RemoveRoute`; its
outcome steers control flow (a failed old-route removal aborts the
operation before the store write).  The trailing `netutils.AddRoute`
failure is only logged, so no oracle is needed for it.  The stored value
is `Neighbor{IP: ip, LinkIndex: linkIndex}` — the `HardwareAddr` field is
left at its zero value (nil). -/
def AddNeighbor (removeRouteOk : IP → Int → Bool) (store : Store)
    (ip : IP) (linkIndex : Int) : AddResult :=
  match lookupStore store (ipString ip) with
  | some nbr =>
    if !(LinkIndexChanged nbr linkIndex) then
      ⟨store, []⟩
    else if removeRouteOk ip nbr.linkIndex then
      ⟨insertStore store (ipString ip) ⟨ip, linkIndex, none⟩,
       [RouteOp.remove ip nbr.linkIndex, RouteOp.add ip linkIndex]⟩
    else
      ⟨store, [RouteOp.remove ip nbr.linkIndex]⟩
  | none =>
    ⟨insertStore store (ipString ip) ⟨ip, linkIndex, none⟩,
     [RouteOp.add ip linkIndex]⟩

/-- `NeighborManager.RemoveNeighbor(ip, linkIndex)`: delete the entry if
present, then (only in that case) issue one `RemoveRoute` call; a
failure of that call is logged, never retried. -/
def RemoveNeighbor (store : Store) (ip : IP) (linkIndex : Int) : AddResult :=
  match lookupStore store (ipString ip) with
  | some _ => ⟨eraseStore store (ipString ip), [RouteOp.remove ip linkIndex]⟩
  | none => ⟨store, []⟩

/-- `NeighborManager.isNeighborExternallyLearned(flags)`. -/
def isNeighborExternallyLearned (flags : Nat) : Bool :=
  flags &&& NTF_EXT_LEARNED != 0

/-- A kernel neighbor-table entry / `netlink.NeighUpdate` payload as the
daemon reads it: optional IP (`netlink.Neigh.IP` may be nil), link
index, NUD state bits, flags, optional link-layer address. -/
structure NeighEntry where
  ip : Option IP
  linkIndex : Int
  state : Nat
  flags : Nat
  hardwareAddr : Option (List Nat)
deriving Repr, DecidableEq

/-- Result of a compound operation (initial load, one event): the store,
the route-call trace, and the trace of `AddNeighbor` invocations
(argument pairs), in order. -/
structure LoadResult where
  store : Store
  ops : List RouteOp
  adds : List (IP × Int)
deriving Repr, DecidableEq

/-- The `interfaceIndex` argument `InitializeNeighborTable` passes to
`netlink.NeighList`: the target index when bound (`>= 0`), else 0. -/
def initInterfaceIndex (targetInterfaceIndex : Int) : Int :=
  if targetInterfaceIndex ≥ 0 then targetInterfaceIndex else 0

/-- The per-entry loop of `NeighborManager.InitializeNeighborTable`,
over the entries `netlink.NeighList` returned: skip nil-IP entries, skip
link-local entries, call `AddNeighbor` on entries whose state intersects
`NUD_REACHABLE|NUD_STALE` and that are not externally learned. -/
def InitializeNeighborTable (removeRouteOk : IP → Int → Bool)
    (entries : List NeighEntry) (store : Store) : LoadResult :=
  match entries with
  | [] => ⟨store, [], []⟩
  | e :: rest =>
    match e.ip with
    | none => InitializeNeighborTable removeRouteOk rest store
    | some ip =>
      if isLinkLocalUnicast ip then
        InitializeNeighborTable removeRouteOk rest store
      else if (e.state &&& (NUD_REACHABLE ||| NUD_STALE)) != 0
           && !(isNeighborExternallyLearned e.flags) then
        let r := AddNeighbor removeRouteOk store ip e.linkIndex
        let rest' := InitializeNeighborTable removeRouteOk rest r.store
        ⟨rest'.store, r.ops ++ rest'.ops, (ip, e.linkIndex) :: rest'.adds⟩
      else
        InitializeNeighborTable removeRouteOk rest store

/-- `NeighborManager.processNeighborUpdate(update)`: drop events for
other interfaces when a target interface is bound (`index > 0`), drop
nil-IP and link-local events; then the add check (REACHABLE/STALE and
not externally learned) and the remove check (state exactly FAILED, or
externally learned) are evaluated in sequence. -/
def processNeighborUpdate (removeRouteOk : IP → Int → Bool)
    (targetInterfaceIndex : Int) (u : NeighEntry) (store : Store) : LoadResult :=
  if targetInterfaceIndex > 0 ∧ u.linkIndex ≠ targetInterfaceIndex then
    ⟨store, [], []⟩
  else
    match u.ip with
    | none => ⟨store, [], []⟩
    | some ip =>
      if isLinkLocalUnicast ip then ⟨store, [], []⟩
      else
        let doAdd := (u.state &&& (NUD_REACHABLE ||| NUD_STALE)) != 0
          && !(isNeighborExternallyLearned u.flags)
        let r1 := if doAdd then AddNeighbor removeRouteOk store ip u.linkIndex
          else ⟨store, []⟩
        let r2 := if u.state == NUD_FAILED || isNeighborExternallyLearned u.flags
          then RemoveNeighbor r1.store ip u.linkIndex
          else ⟨r1.store, []⟩
        ⟨r2.store, r1.ops ++ r2.ops, if doAdd then [(ip, u.linkIndex)] else []⟩

/-- The loop body of `NeighborManager.Cleanup`: one `RemoveRoute` call
per entry; a failing call is logged and the loop continues with the next
entry, so the call trace is the same either way, and the loop never
writes the map. -/
def cleanupOps (removeRouteOk : IP → Int → Bool) : Store → List RouteOp
  | [] => []
  | (_, n) :: rest => RouteOp.remove n.ip n.linkIndex :: cleanupOps removeRouteOk rest

/-- `NeighborManager.Cleanup()`: iterate all entries under the lock and
withdraw each entry's route; the map itself is not written. -/
def Cleanup (removeRouteOk : IP → Int → Bool) (store : Store) : AddResult :=
  ⟨store, cleanupOps removeRouteOk store⟩

/-! ## Passive discovery sniffer (package `sniffer`) -/

/-- Search loop of `neighborAlreadyValid`: first entry equal to `ip`
whose exact state is REACHABLE, STALE, DELAY or PROBE; entries for the
same address in other states do not stop the scan. -/
def neighborAlreadyValidLoop (table : List NeighEntry) (ip : IP) : Bool × String :=
  match table with
  | [] => (false, "")
  | e :: rest =>
    if (match e.ip with | some nip => ipEqual nip ip | none => false) then
      if e.state == NUD_REACHABLE then (true, "REACHABLE")
      else if e.state == NUD_STALE then (true, "STALE")
      else if e.state == NUD_DELAY then (true, "DELAY")
      else if e.state == NUD_PROBE then (true, "PROBE")
      else neighborAlreadyValidLoop rest ip
    else neighborAlreadyValidLoop rest ip

/-- `sniffer.neighborAlreadyValid(ip)`: `listOk` is the success of the
`netlink.NeighList(0, FAMILY_V6)` call (on failure the function reports
`(false, "")` and the caller proceeds); `table` is the listed kernel
IPv6 neighbor table. -/
def neighborAlreadyValid (listOk : Bool) (table : List NeighEntry) (ip : IP) : Bool × String :=
  if !listOk then (false, "")
  else neighborAlreadyValidLoop table ip

/-- A `netlink.NeighSet` write issued by the sniffer. -/
structure KernelNeigh where
  linkIndex : Int
  ip : IP
  hardwareAddr : List Nat
  state : Nat
  family : Nat
deriving Repr, DecidableEq

/-- `sniffer.addNeighborEntry(ip, mac, sniffIface)`: resolve the
insertion interface by name (`resolveLink`; on failure log and drop),
then write a REACHABLE IPv6 neighbor entry for `ip` on that link.  The
`NeighSet` call itself may fail, which is only logged — the write was
still attempted, so it appears in the trace. -/
def addNeighborEntry (resolveLink : String → Option Int) (ip : IP)
    (mac : List Nat) (sniffIface : String) : List KernelNeigh :=
  match resolveLink sniffIface with
  | none => []
  | some idx => [⟨idx, ip, mac, NUD_REACHABLE, FAMILY_V6⟩]

/-- The layers `handlePacket` extracts from a captured packet: IPv6
header, ICMPv6 Neighbor Advertisement (target address and layer
payload), optional Ethernet header. -/
structure IPv6Layer where
  srcIP : IP
deriving Repr, DecidableEq

structure NALayer where
  targetAddress : IP
  payload : List Nat
deriving Repr, DecidableEq

structure EthLayer where
  srcMAC : List Nat
deriving Repr, DecidableEq

structure Packet where
  ipv6 : Option IPv6Layer
  icmpv6NA : Option NALayer
  eth : Option EthLayer
deriving Repr, DecidableEq

/-- `sniffer.handlePacket(packet, sniffIface, insertIface)`, returning
the kernel neighbor writes it issues.  Discard when the IPv6 or NA layer
is missing, when source or target is link-local, or when the target is
already positively tracked by the kernel; then resolve the MAC from the
target link-layer option (payload byte 0 = 2, bytes 2..8) or, failing
that, the Ethernet source MAC; discard when neither exists. -/
def handlePacket (listOk : Bool) (table : List NeighEntry)
    (resolveLink : String → Option Int) (packet : Packet)
    (insertIface : String) : List KernelNeigh :=
  match packet.ipv6, packet.icmpv6NA with
  | some ipv6, some icmpv6 =>
    let srcIP := ipv6.srcIP
    let targetIP := icmpv6.targetAddress
    if isLinkLocalUnicast srcIP || isLinkLocalUnicast targetIP then []
    else if (neighborAlreadyValid listOk table targetIP).1 then []
    else
      let payload := icmpv6.payload
      let mac : Option (List Nat) :=
        if payload.length ≥ 8 && payload.getD 0 0 == 2 then
          some ((payload.drop 2).take 6)
        else
          match packet.eth with
          | some eth => some eth.srcMAC
          | none => none
      match mac with
      | none => []
      | some m => addNeighborEntry resolveLink targetIP m insertIface
  | _, _ => []

/-- Terminal states of `sniffNAWithContext`'s interface-up wait phase. -/
inductive SniffOutcome where
  | cancelled
  | proceedToOpen
deriving Repr, DecidableEq

/-- The wait loop at the head of `sniffNAWithContext`: at each of the
(at most 10) attempts, break out to the capture-opening code as soon as
`netlink.LinkByName` succeeds with the UP flag set (`linkUp attempt`);
otherwise return if the context is cancelled during the 1-second wait
(`cancel attempt`), else retry.  When the loop exhausts its 10 attempts
the code falls through to `pcap.OpenLive` all the same. -/
def sniffWaitLoop (linkUp cancel : Nat → Bool) : Nat → Nat → SniffOutcome
  | _, 0 => SniffOutcome.proceedToOpen
  | attempt, fuel + 1 =>
    if linkUp attempt then SniffOutcome.proceedToOpen
    else if cancel attempt then SniffOutcome.cancelled
    else sniffWaitLoop linkUp cancel (attempt + 1) fuel

/-- Whether a capture worker reaches the `pcap.OpenLive` call: exactly
when the wait phase does not end in cancellation. -/
def sniffOpensCapture (linkUp cancel : Nat → Bool) : Bool :=
  sniffWaitLoop linkUp cancel 0 10 == SniffOutcome.proceedToOpen

/-! ## Reference-level heap model for `ListNeighbors`

`ListNeighbors` copies the map under the lock (`copyMap` in the source)
and hands the copy to the caller; later `AddNeighbor`/`RemoveNeighbor`
calls mutate the manager's own map.  To state snapshot independence the
maps live in an explicit heap of cells; the manager owns cell `nmRef`
and `ListNeighbors` allocates a fresh cell for the returned copy.  Had
the source returned `nm.reachableNeighbors` itself, the model would
return `nmRef` and independence would fail. -/

def heapGet (cells : List (Nat × Store)) (r : Nat) : Option Store :=
  match cells with
  | [] => none
  | (r', s) :: rest => if r' == r then some s else heapGet rest r

def heapSet (cells : List (Nat × Store)) (r : Nat) (s : Store) : List (Nat × Store) :=
  match cells with
  | [] => []
  | (r', s') :: rest => if r' == r then (r, s) :: rest else (r', s') :: heapSet rest r s

structure ManagerHeap where
  cells : List (Nat × Store)
  nmRef : Nat
  nextRef : Nat
deriving Repr, DecidableEq

/-- `NeighborManager.ListNeighbors()`: copy the current map into a fresh
cell and return the reference to the copy. -/
def ListNeighborsRef (h : ManagerHeap) : Nat × ManagerHeap :=
  let snap := (heapGet h.cells h.nmRef).getD []
  (h.nextRef, ⟨(h.nextRef, snap) :: h.cells, h.nmRef, h.nextRef + 1⟩)

/-- A store mutation performed through the manager's public methods. -/
inductive Mutation where
  | add (removeRouteOk : IP → Int → Bool) (ip : IP) (linkIndex : Int)
  | remove (ip : IP) (linkIndex : Int)

/-- Run one mutation against the manager-owned cell. -/
def applyMutation (h : ManagerHeap) (m : Mutation) : ManagerHeap :=
  let cur := (heapGet h.cells h.nmRef).getD []
  match m with
  | Mutation.add rOk ip li =>
    ⟨heapSet h.cells h.nmRef (AddNeighbor rOk cur ip li).store, h.nmRef, h.nextRef⟩
  | Mutation.remove ip li =>
    ⟨heapSet h.cells h.nmRef (RemoveNeighbor cur ip li).store, h.nmRef, h.nextRef⟩

def applyMutations (h : ManagerHeap) : List Mutation → ManagerHeap
  | [] => h
  | m :: rest => applyMutations (applyMutation h m) rest

/-! ## Introspection API (`internal/api`) -/

/-- One element of `ListNeighborsHandler`'s response: `ip` is
`n.IP.String()`, `hwAddr` is `n.HardwareAddr.String()`, `afi` is `"v4"`
unless `n.IP.To4()` is nil. -/
structure NeighborView where
  ip : String
  linkIndex : Int
  hwAddr : String
  afi : String
deriving Repr, DecidableEq

def neighborView (n : Neighbor) : NeighborView :=
  ⟨ipString n.ip, n.linkIndex, hardwareAddrString n.hardwareAddr,
   if (to4 n.ip).isSome then "v4" else "v6"⟩

/-! ## Store lemmas (shared helpers) -/

theorem lookupStore_insertStore_self (s : Store) (k : String) (v : Neighbor) :
    lookupStore (insertStore s k v) k = some v := by
  induction s with
  | nil => simp [insertStore, lookupStore]
  | cons hd tl ih =>
    obtain ⟨k', v'⟩ := hd
    by_cases h : k' = k
    · simp [insertStore, lookupStore, h]
    · simp [insertStore, lookupStore, h, ih]

theorem lookupStore_insertStore_cases (s : Store) (k k' : String) (v n : Neighbor)
    (h : lookupStore (insertStore s k v) k' = some n) :
    (k' = k ∧ n = v) ∨ lookupStore s k' = some n := by
  induction s with
  | nil =>
    by_cases hk : k = k'
    · subst hk
      simp [insertStore, lookupStore] at h
      exact Or.inl ⟨rfl, h.symm⟩
    · simp [insertStore, lookupStore, hk] at h
  | cons hd tl ih =>
    obtain ⟨k₀, v₀⟩ := hd
    by_cases hk : k₀ = k
    · subst hk
      simp only [insertStore, beq_self_eq_true, if_true] at h
      by_cases hk' : k₀ = k'
      · subst hk'
        simp [lookupStore] at h
        exact Or.inl ⟨rfl, h.symm⟩
      · simp only [lookupStore] at h
        rw [if_neg (by simpa using hk')] at h
        right
        simp only [lookupStore]
        rw [if_neg (by simpa using hk')]
        exact h
    · simp only [insertStore] at h
      rw [if_neg (by simpa using hk)] at h
      by_cases hk' : k₀ = k'
      · subst hk'
        simp [lookupStore] at h
        right
        simp [lookupStore, h]
      · simp only [lookupStore] at h
        rw [if_neg (by simpa using hk')] at h
        rcases ih h with h' | h'
        · exact Or.inl h'
        · right
          simp only [lookupStore]
          rw [if_neg (by simpa using hk')]
          exact h'

theorem lookupStore_eq_none_of_not_mem (s : Store) (k : String)
    (h : k ∉ s.map Prod.fst) : lookupStore s k = none := by
  induction s with
  | nil => rfl
  | cons hd tl ih =>
    obtain ⟨k', v'⟩ := hd
    simp only [List.map_cons, List.mem_cons, not_or] at h
    have hne : ¬k' = k := fun e => h.1 e.symm
    simp only [lookupStore]
    rw [if_neg (by simpa using hne)]
    exact ih h.2

theorem lookupStore_eraseStore_self (s : Store) (k : String) (hs : keysNodup s) :
    lookupStore (eraseStore s k) k = none := by
  induction s with
  | nil => rfl
  | cons hd tl ih =>
    obtain ⟨k', v'⟩ := hd
    unfold keysNodup at hs
    simp only [List.map_cons, List.nodup_cons] at hs
    by_cases h : k' = k
    · subst h
      simp only [eraseStore, beq_self_eq_true, if_true]
      exact lookupStore_eq_none_of_not_mem tl k' hs.1
    · have h1 : eraseStore ((k', v') :: tl) k = (k', v') :: eraseStore tl k := by
        simp [eraseStore, h]
      have h2 : lookupStore ((k', v') :: eraseStore tl k) k =
          lookupStore (eraseStore tl k) k := by
        simp [lookupStore, h]
      rw [h1, h2]
      exact ih (by unfold keysNodup; exact hs.2)

/-! ## C1: link-index migration in AddNeighbor -/

/-- C1: for an address already in the store with a different link index,
`AddNeighbor` issues the removal of the old route (for the previous link
index) before the installation of the new route; when that removal
fails, `AddNeighbor` returns without mutating the store, so the existing
entry keeps its old link index. -/
theorem addNeighbor_migration (rOk : IP → Int → Bool) (s : Store) (ip : IP)
    (li : Int) (nbr : Neighbor)
    (hmem : lookupStore s (ipString ip) = some nbr) (hch : nbr.linkIndex ≠ li) :
    (rOk ip nbr.linkIndex = true →
      (AddNeighbor rOk s ip li).ops =
        [RouteOp.remove ip nbr.linkIndex, RouteOp.add ip li]) ∧
    (rOk ip nbr.linkIndex = false →
      AddNeighbor rOk s ip li = ⟨s, [RouteOp.remove ip nbr.linkIndex]⟩ ∧
      lookupStore (AddNeighbor rOk s ip li).store (ipString ip) = some nbr) := by
  constructor <;> intro hr <;>
    simp [AddNeighbor, hmem, LinkIndexChanged, bne_iff_ne, hch, hr]

theorem addNeighbor_migration_witness :
    (AddNeighbor (fun _ _ => false)
        [("10.0.0.5", ⟨[10, 0, 0, 5], 2, none⟩)] [10, 0, 0, 5] 3 =
      ⟨[("10.0.0.5", ⟨[10, 0, 0, 5], 2, none⟩)],
       [RouteOp.remove [10, 0, 0, 5] 2]⟩) ∧
    (AddNeighbor (fun _ _ => true)
        [("10.0.0.5", ⟨[10, 0, 0, 5], 2, none⟩)] [10, 0, 0, 5] 3).ops =
      [RouteOp.remove [10, 0, 0, 5] 2, RouteOp.add [10, 0, 0, 5] 3] := by
  constructor
  · exact ((addNeighbor_migration (fun _ _ => false)
      [("10.0.0.5", ⟨[10, 0, 0, 5], 2, none⟩)] [10, 0, 0, 5] 3
      ⟨[10, 0, 0, 5], 2, none⟩ (by decide) (by decide)).2 rfl).1
  · exact (addNeighbor_migration (fun _ _ => true)
      [("10.0.0.5", ⟨[10, 0, 0, 5], 2, none⟩)] [10, 0, 0, 5] 3
      ⟨[10, 0, 0, 5], 2, none⟩ (by decide) (by decide)).1 rfl

/-! ## C6: idempotence of AddNeighbor -/

/-- C6: a second `AddNeighbor` with the same address and the same link
index leaves the store exactly as after the first call and issues no
route-install call. -/
theorem addNeighbor_idempotent (rOk : IP → Int → Bool) (s : Store) (ip : IP)
    (li : Int) :
    (AddNeighbor rOk (AddNeighbor rOk s ip li).store ip li).store =
      (AddNeighbor rOk s ip li).store ∧
    ∀ a j, RouteOp.add a j ∉ (AddNeighbor rOk (AddNeighbor rOk s ip li).store ip li).ops := by
  rcases h : lookupStore s (ipString ip) with _ | nbr
  · simp [AddNeighbor, h, lookupStore_insertStore_self, LinkIndexChanged]
  · by_cases hch : nbr.linkIndex = li
    · simp [AddNeighbor, h, LinkIndexChanged, hch]
    · rcases hr : rOk ip nbr.linkIndex with _ | _
      · simp [AddNeighbor, h, LinkIndexChanged, bne_iff_ne, hch, hr]
      · simp [AddNeighbor, h, LinkIndexChanged, bne_iff_ne, hch, hr,
          lookupStore_insertStore_self]

/-! ## C8: RemoveNeighbor isolation and single-shot withdrawal -/

/-- C8: `RemoveNeighbor` on an absent address performs no route-table
call and leaves the store unchanged; on a present address it deletes the
entry and issues the route withdrawal exactly once (the withdrawal's
outcome is only logged, never retried, so the trace is one call long
regardless). -/
theorem removeNeighbor_isolation (s : Store) (ip : IP) (li : Int) :
    (lookupStore s (ipString ip) = none → RemoveNeighbor s ip li = ⟨s, []⟩) ∧
    (∀ n, lookupStore s (ipString ip) = some n →
      (RemoveNeighbor s ip li).ops = [RouteOp.remove ip li] ∧
      (RemoveNeighbor s ip li).store = eraseStore s (ipString ip) ∧
      (keysNodup s →
        lookupStore (RemoveNeighbor s ip li).store (ipString ip) = none)) := by
  constructor
  · intro h; simp [RemoveNeighbor, h]
  · intro n h
    refine ⟨by simp [RemoveNeighbor, h], by simp [RemoveNeighbor, h], fun hs => ?_⟩
    simp [RemoveNeighbor, h]
    exact lookupStore_eraseStore_self s (ipString ip) hs

theorem removeNeighbor_isolation_witness :
    RemoveNeighbor ([] : Store) [10, 0, 0, 5] 2 = ⟨[], []⟩ ∧
    ((RemoveNeighbor [("10.0.0.5", ⟨[10, 0, 0, 5], 2, none⟩)] [10, 0, 0, 5] 2).ops =
        [RouteOp.remove [10, 0, 0, 5] 2] ∧
      (RemoveNeighbor [("10.0.0.5", ⟨[10, 0, 0, 5], 2, none⟩)] [10, 0, 0, 5] 2).store =
        eraseStore [("10.0.0.5", ⟨[10, 0, 0, 5], 2, none⟩)] "10.0.0.5" ∧
      lookupStore (RemoveNeighbor [("10.0.0.5", ⟨[10, 0, 0, 5], 2, none⟩)]
          [10, 0, 0, 5] 2).store "10.0.0.5" = none) := by
  constructor
  · exact (removeNeighbor_isolation [] [10, 0, 0, 5] 2).1 (by decide)
  · have h := (removeNeighbor_isolation [("10.0.0.5", ⟨[10, 0, 0, 5], 2, none⟩)]
      [10, 0, 0, 5] 2).2 ⟨[10, 0, 0, 5], 2, none⟩ (by decide)
    have hk : ipString ([10, 0, 0, 5] : IP) = "10.0.0.5" := by decide
    exact ⟨h.1, hk ▸ h.2.1, hk ▸ h.2.2 (by decide)⟩

/-! ## C3: Cleanup withdraws every route but does not empty the store -/

/-- C3 counterexample: running `Cleanup` on a store holding one entry
issues the entry's route withdrawal but leaves the entry in the store —
the store is not emptied, contradicting the claim that after `Cleanup`
the store contains no entries. -/
theorem cleanup_counterexample :
    Cleanup (fun _ _ => true) [("10.0.0.5", ⟨[10, 0, 0, 5], 2, none⟩)] =
      ⟨[("10.0.0.5", ⟨[10, 0, 0, 5], 2, none⟩)], [RouteOp.remove [10, 0, 0, 5] 2]⟩ ∧
    [("10.0.0.5", (⟨[10, 0, 0, 5], 2, none⟩ : Neighbor))] ≠ ([] : Store) := by
  decide

/-- C3 (amended): `Cleanup` issues one route withdrawal per store entry,
in store order, continuing past individual failures — the trace is the
same whatever `removeRouteOk` reports — but the store itself is left
unchanged; entries are not destroyed by `Cleanup` (they vanish only
because the process then exits). -/
theorem cleanup_withdraws_all (rOk : IP → Int → Bool) (s : Store) :
    (Cleanup rOk s).store = s ∧
    (Cleanup rOk s).ops = s.map fun p => RouteOp.remove p.2.ip p.2.linkIndex := by
  refine ⟨rfl, ?_⟩
  induction s with
  | nil => rfl
  | cons hd tl ih =>
    obtain ⟨k, n⟩ := hd
    simpa [Cleanup, cleanupOps] using ih

/-! ## Characterisation of the AddNeighbor invocations of the load and
event paths (shared helpers for C4 and C5) -/

theorem initializeNeighborTable_adds (rOk : IP → Int → Bool) :
    ∀ (entries : List NeighEntry) (s : Store) (p : IP × Int),
      p ∈ (InitializeNeighborTable rOk entries s).adds →
      ∃ e ∈ entries, e.ip = some p.1 ∧ e.linkIndex = p.2 ∧
        isLinkLocalUnicast p.1 = false ∧
        ((e.state &&& (NUD_REACHABLE ||| NUD_STALE)) != 0) = true ∧
        isNeighborExternallyLearned e.flags = false := by
  intro entries
  induction entries with
  | nil =>
    intro s p hp
    simp [InitializeNeighborTable] at hp
  | cons e rest ih =>
    intro s p hp
    rcases he : e.ip with _ | ip
    · simp only [InitializeNeighborTable, he] at hp
      obtain ⟨e', he', hcond⟩ := ih s p hp
      exact ⟨e', List.mem_cons_of_mem e he', hcond⟩
    · by_cases hll : isLinkLocalUnicast ip = true
      · simp only [InitializeNeighborTable, he, hll, if_true] at hp
        obtain ⟨e', he', hcond⟩ := ih s p hp
        exact ⟨e', List.mem_cons_of_mem e he', hcond⟩
      · by_cases hg : ((e.state &&& (NUD_REACHABLE ||| NUD_STALE)) != 0
            && !(isNeighborExternallyLearned e.flags)) = true
        · simp only [InitializeNeighborTable, he, hll, Bool.false_eq_true, if_false,
            hg, if_true, List.mem_cons] at hp
          rcases hp with rfl | hp'
          · obtain ⟨hstate, hext⟩ := Bool.and_eq_true_iff.mp hg
            exact ⟨e, List.mem_cons_self e rest,
              he, rfl, by simpa using hll, hstate, by simpa using hext⟩
          · obtain ⟨e', he', hcond⟩ := ih _ p hp'
            exact ⟨e', List.mem_cons_of_mem e he', hcond⟩
        · simp only [InitializeNeighborTable, he, hll, Bool.false_eq_true, if_false,
            hg] at hp
          obtain ⟨e', he', hcond⟩ := ih s p hp
          exact ⟨e', List.mem_cons_of_mem e he', hcond⟩

theorem processNeighborUpdate_adds (rOk : IP → Int → Bool) (tii : Int)
    (u : NeighEntry) (s : Store) (p : IP × Int)
    (hp : p ∈ (processNeighborUpdate rOk tii u s).adds) :
    u.ip = some p.1 ∧ u.linkIndex = p.2 ∧ isLinkLocalUnicast p.1 = false ∧
      ((u.state &&& (NUD_REACHABLE ||| NUD_STALE)) != 0) = true ∧
      isNeighborExternallyLearned u.flags = false := by
  by_cases hf : tii > 0 ∧ u.linkIndex ≠ tii
  · simp [processNeighborUpdate, hf] at hp
  · rcases hu : u.ip with _ | ip
    · simp [processNeighborUpdate, hf, hu] at hp
    · by_cases hll : isLinkLocalUnicast ip = true
      · simp [processNeighborUpdate, hf, hu, hll] at hp
      · by_cases hg : ((u.state &&& (NUD_REACHABLE ||| NUD_STALE)) != 0
            && !(isNeighborExternallyLearned u.flags)) = true
        · simp only [processNeighborUpdate, hf, hu, hll, Bool.false_eq_true, if_false,
            if_neg hf, hg, if_true, List.mem_singleton] at hp
          subst hp
          obtain ⟨hstate, hext⟩ := Bool.and_eq_true_iff.mp hg
          refine ⟨?_, rfl, ?_, hstate, ?_⟩
          · simp [hu]
          · simpa using hll
          · simpa using hext
        · simp [processNeighborUpdate, hf, hu, hll, hg] at hp

/-- Every kernel neighbor write of the packet handler targets the
advertised (non-link-local) target address. -/
theorem handlePacket_writes (listOk : Bool) (table : List NeighEntry)
    (resolveLink : String → Option Int) (pkt : Packet) (ii : String)
    (w : KernelNeigh) (hw : w ∈ handlePacket listOk table resolveLink pkt ii) :
    ∃ na, pkt.icmpv6NA = some na ∧ w.ip = na.targetAddress ∧
      isLinkLocalUnicast na.targetAddress = false ∧ w.state = NUD_REACHABLE := by
  unfold handlePacket at hw
  rcases hip : pkt.ipv6 with _ | v6 <;> rw [hip] at hw <;>
    rcases hna : pkt.icmpv6NA with _ | na <;> rw [hna] at hw <;>
    (try dsimp only at hw)
  · simp at hw
  · simp at hw
  · simp at hw
  · refine ⟨na, rfl, ?_⟩
    split at hw
    next hll => simp at hw
    next hll =>
      have hll2 : isLinkLocalUnicast na.targetAddress = false := by
        simp only [Bool.or_eq_true, not_or, Bool.not_eq_true] at hll
        exact hll.2
      split at hw
      next => simp at hw
      next =>
        split at hw
        next => simp at hw
        next m heq =>
          unfold addNeighborEntry at hw
          split at hw
          next => simp at hw
          next idx hres =>
            simp at hw
            subst hw
            exact ⟨rfl, hll2, rfl⟩

/-! ## C4: link-local filtering -/

/-- C4 counterexample: `AddNeighbor` itself performs no link-local
check; called directly with the link-local address `fe80::1` it inserts
the entry into the store. -/
theorem addNeighbor_linkLocal_counterexample :
    isLinkLocalUnicast [0xfe, 0x80, 0, 0, 0, 0, 0, 0, 0, 0, 0, 0, 0, 0, 0, 1] = true ∧
    (AddNeighbor (fun _ _ => true) []
        [0xfe, 0x80, 0, 0, 0, 0, 0, 0, 0, 0, 0, 0, 0, 0, 0, 1] 4).store =
      [("fe80::1", ⟨[0xfe, 0x80, 0, 0, 0, 0, 0, 0, 0, 0, 0, 0, 0, 0, 0, 1], 4, none⟩)] := by
  decide

/-- C4 (amended): the initial table load, kernel-event processing and
the packet handler never insert a link-local-scoped address — every
`AddNeighbor` invocation they make carries a non-link-local address, and
every kernel neighbor write of the packet handler targets a
non-link-local address.  `AddNeighbor` itself performs no link-local
check (see the counterexample), so this filtering lives entirely at
those call sites. -/
theorem linkLocal_never_inserted :
    (∀ (rOk : IP → Int → Bool) (entries : List NeighEntry) (s : Store) (p : IP × Int),
        p ∈ (InitializeNeighborTable rOk entries s).adds →
        isLinkLocalUnicast p.1 = false) ∧
    (∀ (rOk : IP → Int → Bool) (tii : Int) (u : NeighEntry) (s : Store) (p : IP × Int),
        p ∈ (processNeighborUpdate rOk tii u s).adds →
        isLinkLocalUnicast p.1 = false) ∧
    (∀ (listOk : Bool) (table : List NeighEntry) (resolveLink : String → Option Int)
        (pkt : Packet) (ii : String) (w : KernelNeigh),
        w ∈ handlePacket listOk table resolveLink pkt ii →
        isLinkLocalUnicast w.ip = false) := by
  refine ⟨fun rOk entries s p hp => ?_, fun rOk tii u s p hp => ?_,
    fun listOk table resolveLink pkt ii w hw => ?_⟩
  · obtain ⟨e, _, _, _, hll, _, _⟩ := initializeNeighborTable_adds rOk entries s p hp
    exact hll
  · exact (processNeighborUpdate_adds rOk tii u s p hp).2.2.1
  · obtain ⟨na, _, hip, hll, _⟩ := handlePacket_writes listOk table resolveLink pkt ii w hw
    rw [hip]
    exact hll

theorem linkLocal_never_inserted_witness :
    isLinkLocalUnicast [10, 0, 0, 5] = false ∧
    isLinkLocalUnicast [10, 0, 0, 6] = false ∧
    isLinkLocalUnicast ([0x20, 0x01, 0x0d, 0xb8, 0, 0, 0, 0, 0, 0, 0, 0, 0, 0, 0, 1] : IP) = false := by
  refine ⟨?_, ?_, ?_⟩
  · exact linkLocal_never_inserted.1 (fun _ _ => true)
      [⟨some [10, 0, 0, 5], 2, NUD_REACHABLE, 0, none⟩] [] ([10, 0, 0, 5], 2)
      (by decide)
  · exact linkLocal_never_inserted.2.1 (fun _ _ => true) (-1)
      ⟨some [10, 0, 0, 6], 3, NUD_STALE, 0, none⟩ [] ([10, 0, 0, 6], 3)
      (by decide)
  · exact linkLocal_never_inserted.2.2 true [] (fun _ => some 7)
      ⟨some ⟨[0x20, 0x01, 0x0d, 0xb8, 0, 0, 0, 0, 0, 0, 0, 0, 0, 0, 0, 2]⟩,
       some ⟨[0x20, 0x01, 0x0d, 0xb8, 0, 0, 0, 0, 0, 0, 0, 0, 0, 0, 0, 1],
         [2, 1, 0xaa, 0xbb, 0xcc, 0xdd, 0xee, 0xff]⟩, none⟩ "eth0"
      ⟨7, [0x20, 0x01, 0x0d, 0xb8, 0, 0, 0, 0, 0, 0, 0, 0, 0, 0, 0, 1],
       [0xaa, 0xbb, 0xcc, 0xdd, 0xee, 0xff], NUD_REACHABLE, FAMILY_V6⟩
      (by decide)

/-! ## C5: externally-learned exclusion -/

/-- C5: the initial load only ever invokes `AddNeighbor` for entries not
flagged externally-learned; event processing invokes no `AddNeighbor`
for an externally-learned update, and (when the update passes the
interface filter, carries an address, and that address is not
link-local, i.e. when it reaches the state checks) removes the update's
address from the store, tracked or not. -/
theorem externallyLearned_exclusion :
    (∀ (rOk : IP → Int → Bool) (entries : List NeighEntry) (s : Store) (p : IP × Int),
        p ∈ (InitializeNeighborTable rOk entries s).adds →
        ∃ e ∈ entries, e.ip = some p.1 ∧ e.linkIndex = p.2 ∧
          isNeighborExternallyLearned e.flags = false) ∧
    (∀ (rOk : IP → Int → Bool) (tii : Int) (u : NeighEntry) (s : Store),
        isNeighborExternallyLearned u.flags = true →
        (processNeighborUpdate rOk tii u s).adds = [] ∧
        (∀ ip, u.ip = some ip → isLinkLocalUnicast ip = false →
          ¬(tii > 0 ∧ u.linkIndex ≠ tii) → keysNodup s →
          lookupStore (processNeighborUpdate rOk tii u s).store (ipString ip) = none)) := by
  constructor
  · intro rOk entries s p hp
    obtain ⟨e, he, h1, h2, _, _, h3⟩ := initializeNeighborTable_adds rOk entries s p hp
    exact ⟨e, he, h1, h2, h3⟩
  · intro rOk tii u s hext
    have hdoAdd : ((u.state &&& (NUD_REACHABLE ||| NUD_STALE)) != 0
        && !(isNeighborExternallyLearned u.flags)) = false := by
      simp [hext]
    constructor
    · by_cases hf : tii > 0 ∧ u.linkIndex ≠ tii
      · simp [processNeighborUpdate, hf]
      · rcases hu : u.ip with _ | ip
        · simp [processNeighborUpdate, hf, hu]
        · by_cases hll : isLinkLocalUnicast ip = true
          · simp [processNeighborUpdate, hf, hu, hll]
          · simp [processNeighborUpdate, hf, hu, hll, hdoAdd]
    · intro ip hu hll hf hnd
      have hrem : (u.state == NUD_FAILED || isNeighborExternallyLearned u.flags) = true := by
        simp [hext]
      simp only [processNeighborUpdate, hu, hll, Bool.false_eq_true, if_false,
        if_neg hf, hdoAdd, hrem, if_true]
      rcases hm : lookupStore s (ipString ip) with _ | nbr
      · simp [RemoveNeighbor, hm]
      · simp only [RemoveNeighbor, hm]
        exact lookupStore_eraseStore_self s (ipString ip) hnd

theorem externallyLearned_exclusion_witness :
    (∃ e ∈ [(⟨some [10, 0, 0, 5], 2, NUD_REACHABLE, 0, none⟩ : NeighEntry)],
        e.ip = some [10, 0, 0, 5] ∧ e.linkIndex = 2 ∧
        isNeighborExternallyLearned e.flags = false) ∧
    (processNeighborUpdate (fun _ _ => true) (-1)
        ⟨some [10, 0, 0, 5], 2, NUD_STALE, NTF_EXT_LEARNED, none⟩
        [("10.0.0.5", ⟨[10, 0, 0, 5], 2, none⟩)]).adds = [] ∧
    lookupStore (processNeighborUpdate (fun _ _ => true) (-1)
        ⟨some [10, 0, 0, 5], 2, NUD_STALE, NTF_EXT_LEARNED, none⟩
        [("10.0.0.5", ⟨[10, 0, 0, 5], 2, none⟩)]).store
      (ipString [10, 0, 0, 5]) = none := by
  have h2 := externallyLearned_exclusion.2 (fun _ _ => true) (-1)
    ⟨some [10, 0, 0, 5], 2, NUD_STALE, NTF_EXT_LEARNED, none⟩
    [("10.0.0.5", ⟨[10, 0, 0, 5], 2, none⟩)] (by decide)
  refine ⟨?_, h2.1, ?_⟩
  · exact externallyLearned_exclusion.1 (fun _ _ => true)
      [⟨some [10, 0, 0, 5], 2, NUD_REACHABLE, 0, none⟩] [] ([10, 0, 0, 5], 2)
      (by decide)
  · exact h2.2 [10, 0, 0, 5] rfl (by decide) (by decide) (by decide)

/-! ## C7: packet handler skips kernel-tracked targets -/

theorem neighborAlreadyValidLoop_found (ip : IP) :
    ∀ (table : List NeighEntry),
      (∃ e ∈ table, (∃ q, e.ip = some q ∧ ipEqual q ip = true) ∧
        (e.state == NUD_REACHABLE || e.state == NUD_STALE ||
          e.state == NUD_DELAY || e.state == NUD_PROBE) = true) →
      (neighborAlreadyValidLoop table ip).1 = true := by
  intro table
  induction table with
  | nil =>
    rintro ⟨e, he, -⟩
    simp at he
  | cons a rest ih =>
    rintro ⟨e, he, ⟨q, hq, hqe⟩, hst⟩
    rcases List.mem_cons.mp he with rfl | he'
    · simp only [neighborAlreadyValidLoop, hq, hqe, if_true]
      by_cases h1 : (e.state == NUD_REACHABLE) = true
      · simp [h1]
      · by_cases h2 : (e.state == NUD_STALE) = true
        · simp [h1, h2]
        · by_cases h3 : (e.state == NUD_DELAY) = true
          · simp [h1, h2, h3]
          · by_cases h4 : (e.state == NUD_PROBE) = true
            · simp [h1, h2, h3, h4]
            · simp [h1, h2, h3, h4] at hst
    · have hrest := ih ⟨e, he', ⟨q, hq, hqe⟩, hst⟩
      simp only [neighborAlreadyValidLoop]
      by_cases hc : (match a.ip with
          | some nip => ipEqual nip ip
          | none => false) = true
      · rw [if_pos hc]
        by_cases h1 : (a.state == NUD_REACHABLE) = true
        · simp [h1]
        · by_cases h2 : (a.state == NUD_STALE) = true
          · simp [h1, h2]
          · by_cases h3 : (a.state == NUD_DELAY) = true
            · simp [h1, h2, h3]
            · by_cases h4 : (a.state == NUD_PROBE) = true
              · simp [h1, h2, h3, h4]
              · simpa [h1, h2, h3, h4] using hrest
      · rw [if_neg hc]
        exact hrest

/-- C7: a Neighbor Advertisement whose target address already has a
kernel neighbor-table entry in state REACHABLE, STALE, DELAY or PROBE
produces zero kernel writes — the handler discards the packet before
`addNeighborEntry`. -/
theorem handlePacket_skips_tracked (table : List NeighEntry)
    (resolveLink : String → Option Int) (pkt : Packet) (ii : String) (na : NALayer)
    (hna : pkt.icmpv6NA = some na)
    (hex : ∃ e ∈ table, (∃ q, e.ip = some q ∧ ipEqual q na.targetAddress = true) ∧
      (e.state == NUD_REACHABLE || e.state == NUD_STALE ||
        e.state == NUD_DELAY || e.state == NUD_PROBE) = true) :
    handlePacket true table resolveLink pkt ii = [] := by
  rcases hip : pkt.ipv6 with _ | v6
  · simp [handlePacket, hip]
  · simp only [handlePacket, hip, hna]
    by_cases hll : (isLinkLocalUnicast v6.srcIP
        || isLinkLocalUnicast na.targetAddress) = true
    · simp [hll]
    · have hv : (neighborAlreadyValid true table na.targetAddress).1 = true := by
        simpa [neighborAlreadyValid] using neighborAlreadyValidLoop_found na.targetAddress table hex
      simp [hll, hv]

theorem handlePacket_skips_tracked_witness :
    handlePacket true
      [⟨some [0x20, 0x01, 0x0d, 0xb8, 0, 0, 0, 0, 0, 0, 0, 0, 0, 0, 0, 1], 3,
        NUD_REACHABLE, 0, some [0xaa, 0xbb, 0xcc, 0xdd, 0xee, 0xff]⟩]
      (fun _ => some 7)
      ⟨some ⟨[0x20, 0x01, 0x0d, 0xb8, 0, 0, 0, 0, 0, 0, 0, 0, 0, 0, 0, 2]⟩,
       some ⟨[0x20, 0x01, 0x0d, 0xb8, 0, 0, 0, 0, 0, 0, 0, 0, 0, 0, 0, 1],
         [2, 1, 0xaa, 0xbb, 0xcc, 0xdd, 0xee, 0xff]⟩, none⟩
      "eth0" = [] := by
  exact handlePacket_skips_tracked _ _ _ _
    ⟨[0x20, 0x01, 0x0d, 0xb8, 0, 0, 0, 0, 0, 0, 0, 0, 0, 0, 0, 1],
     [2, 1, 0xaa, 0xbb, 0xcc, 0xdd, 0xee, 0xff]⟩ rfl
    ⟨⟨some [0x20, 0x01, 0x0d, 0xb8, 0, 0, 0, 0, 0, 0, 0, 0, 0, 0, 0, 1], 3,
       NUD_REACHABLE, 0, some [0xaa, 0xbb, 0xcc, 0xdd, 0xee, 0xff]⟩,
     by decide, ⟨[0x20, 0x01, 0x0d, 0xb8, 0, 0, 0, 0, 0, 0, 0, 0, 0, 0, 0, 1],
       rfl, by decide⟩, by decide⟩

/-! ## C2: the interface-up wait budget of sniffNAWithContext -/

theorem sniffWaitLoop_proceeds (linkUp cancel : Nat → Bool) :
    ∀ (fuel attempt : Nat), (∀ i, i < fuel → cancel (attempt + i) = false) →
      sniffWaitLoop linkUp cancel attempt fuel = SniffOutcome.proceedToOpen := by
  intro fuel
  induction fuel with
  | zero => intro attempt _; rfl
  | succ n ih =>
    intro attempt hc
    have c0 : cancel attempt = false := by simpa using hc 0 (Nat.succ_pos n)
    rcases hu : linkUp attempt with _ | _
    · simp only [sniffWaitLoop, hu, Bool.false_eq_true, if_false, c0]
      exact ih (attempt + 1) fun i hi => by
        rw [show attempt + 1 + i = attempt + (i + 1) by omega]
        exact hc (i + 1) (by omega)
    · simp [sniffWaitLoop, hu]

theorem sniffWaitLoop_cancelled (linkUp cancel : Nat → Bool) :
    ∀ (fuel attempt : Nat), (∀ i, i < fuel → linkUp (attempt + i) = false) →
      (∃ i, i < fuel ∧ cancel (attempt + i) = true) →
      sniffWaitLoop linkUp cancel attempt fuel = SniffOutcome.cancelled := by
  intro fuel
  induction fuel with
  | zero =>
    rintro attempt _ ⟨i, hi, -⟩
    omega
  | succ n ih =>
    rintro attempt hup ⟨i, hi, hci⟩
    have h0 : linkUp attempt = false := by simpa using hup 0 (Nat.succ_pos n)
    rcases c0 : cancel attempt with _ | _
    · simp only [sniffWaitLoop, h0, Bool.false_eq_true, if_false, c0]
      rcases i with _ | i'
      · rw [Nat.add_zero] at hci
        rw [hci] at c0
        cases c0
      · exact ih (attempt + 1)
          (fun j hj => by
            rw [show attempt + 1 + j = attempt + (j + 1) by omega]
            exact hup (j + 1) (by omega))
          ⟨i', by omega, by
            rw [show attempt + 1 + i' = attempt + (i' + 1) by omega]
            exact hci⟩
    · simp [sniffWaitLoop, h0, c0]

/-- C2 counterexample: a worker whose interface never reports UP within
the 10-attempt budget and that is never cancelled still reaches the
`pcap.OpenLive` call — exhausting the retry loop falls through to
opening the capture instead of exiting. -/
theorem sniffWait_counterexample :
    (∀ i, i < 10 → (fun _ : Nat => false) i = false) ∧
    sniffOpensCapture (fun _ => false) (fun _ => false) = true := by
  exact ⟨fun i _ => rfl, by decide⟩

/-- C2 (amended): when the interface never reports UP during the
10-attempt budget, the worker exits without opening a packet capture
exactly when its context is cancelled during one of the waits; if no
cancellation arrives, the loop exhausts its budget and the worker
proceeds to attempt `pcap.OpenLive` anyway. -/
theorem sniffWait_budget_exhausted (linkUp cancel : Nat → Bool)
    (hup : ∀ i, i < 10 → linkUp i = false) :
    ((∃ i, i < 10 ∧ cancel i = true) →
      sniffWaitLoop linkUp cancel 0 10 = SniffOutcome.cancelled) ∧
    ((∀ i, i < 10 → cancel i = false) → sniffOpensCapture linkUp cancel = true) := by
  constructor
  · intro hex
    exact sniffWaitLoop_cancelled linkUp cancel 10 0 (by simpa using hup) (by simpa using hex)
  · intro hc
    unfold sniffOpensCapture
    rw [sniffWaitLoop_proceeds linkUp cancel 10 0 (by simpa using hc)]
    rfl

theorem sniffWait_budget_exhausted_witness :
    sniffWaitLoop (fun _ => false) (fun i => i == 3) 0 10 = SniffOutcome.cancelled ∧
    sniffOpensCapture (fun _ => false) (fun _ => false) = true := by
  constructor
  · exact (sniffWait_budget_exhausted (fun _ => false) (fun i => i == 3)
      (fun _ _ => rfl)).1 ⟨3, by omega, rfl⟩
  · exact (sniffWait_budget_exhausted (fun _ => false) (fun _ => false)
      (fun _ _ => rfl)).2 (fun _ _ => rfl)

/-! ## C9: snapshot independence of ListNeighbors -/

theorem heapGet_heapSet_ne (cells : List (Nat × Store)) (r r' : Nat) (s : Store)
    (h : r ≠ r') : heapGet (heapSet cells r' s) r = heapGet cells r := by
  induction cells with
  | nil => rfl
  | cons hd tl ih =>
    obtain ⟨r₀, s₀⟩ := hd
    by_cases h0 : r₀ = r'
    · subst h0
      have hr : ¬(r₀ = r) := fun e => h e.symm
      simp [heapSet, heapGet, hr]
    · simp only [heapSet, heapGet]
      rw [if_neg (by simpa using h0)]
      by_cases hr : r₀ = r
      · simp [heapGet, hr]
      · simp only [heapGet]
        rw [if_neg (by simpa using hr), if_neg (by simpa using hr)]
        exact ih

theorem applyMutation_nmRef (h : ManagerHeap) (m : Mutation) :
    (applyMutation h m).nmRef = h.nmRef := by
  cases m <;> rfl

theorem applyMutations_heapGet_ne (ms : List Mutation) :
    ∀ (h : ManagerHeap) (r : Nat), r ≠ h.nmRef →
      heapGet (applyMutations h ms).cells r = heapGet h.cells r := by
  induction ms with
  | nil => intro h r _; rfl
  | cons m rest ih =>
    intro h r hr
    have h1 : heapGet (applyMutation h m).cells r = heapGet h.cells r := by
      cases m <;> exact heapGet_heapSet_ne _ _ _ _ hr
    have h2 : r ≠ (applyMutation h m).nmRef := by
      rw [applyMutation_nmRef]
      exact hr
    calc heapGet (applyMutations h (m :: rest)).cells r
        = heapGet (applyMutation h m).cells r := ih (applyMutation h m) r h2
      _ = heapGet h.cells r := h1

/-- C9: the snapshot cell returned by `ListNeighbors` is untouched by
any later sequence of `AddNeighbor`/`RemoveNeighbor` mutations of the
manager's own map: after the mutations it still holds the copy of the
store taken at call time. -/
theorem listNeighbors_snapshot_independent (h : ManagerHeap)
    (hwf : h.nmRef ≠ h.nextRef) (ms : List Mutation) :
    heapGet (applyMutations (ListNeighborsRef h).2 ms).cells (ListNeighborsRef h).1 =
      some ((heapGet h.cells h.nmRef).getD []) := by
  have hne : (ListNeighborsRef h).1 ≠ (ListNeighborsRef h).2.nmRef := by
    simpa [ListNeighborsRef] using fun e => hwf e.symm
  rw [applyMutations_heapGet_ne ms _ _ hne]
  simp [ListNeighborsRef, heapGet]

theorem listNeighbors_snapshot_independent_witness :
    heapGet (applyMutations (ListNeighborsRef ⟨[(0, [])], 0, 1⟩).2
        [Mutation.add (fun _ _ => true) [10, 0, 0, 5] 2,
         Mutation.remove [10, 0, 0, 5] 2]).cells
      (ListNeighborsRef ⟨[(0, [])], 0, 1⟩).1 = some [] := by
  exact listNeighbors_snapshot_independent ⟨[(0, [])], 0, 1⟩ (by decide)
    [Mutation.add (fun _ _ => true) [10, 0, 0, 5] 2,
     Mutation.remove [10, 0, 0, 5] 2]

/-! ## C10: entries inserted by AddNeighbor carry no hardware address -/

/-- C10: every store entry that `AddNeighbor` writes (as opposed to
entries already present before the call) has a nil hardware address, and
the `hwAddr` field `ListNeighborsHandler` renders for such an entry is
the empty string. -/
theorem addNeighbor_hwAddr_none (rOk : IP → Int → Bool) (s : Store) (ip : IP)
    (li : Int) (k : String) (n : Neighbor)
    (h : lookupStore (AddNeighbor rOk s ip li).store k = some n) :
    lookupStore s k = some n ∨
      (n.hardwareAddr = none ∧ (neighborView n).hwAddr = "") := by
  rcases hm : lookupStore s (ipString ip) with _ | nbr
  · simp only [AddNeighbor, hm] at h
    rcases lookupStore_insertStore_cases s (ipString ip) k ⟨ip, li, none⟩ n h with ⟨-, rfl⟩ | h'
    · exact Or.inr ⟨rfl, rfl⟩
    · exact Or.inl h'
  · by_cases hch : LinkIndexChanged nbr li = true
    · by_cases hr : rOk ip nbr.linkIndex = true
      · simp only [AddNeighbor, hm, hch, Bool.not_true, Bool.false_eq_true, if_false,
          hr, if_true] at h
        rcases lookupStore_insertStore_cases s (ipString ip) k ⟨ip, li, none⟩ n h with ⟨-, rfl⟩ | h'
        · exact Or.inr ⟨rfl, rfl⟩
        · exact Or.inl h'
      · simp only [AddNeighbor, hm, hch, Bool.not_true, Bool.false_eq_true, if_false,
          hr] at h
        exact Or.inl h
    · have hch' : LinkIndexChanged nbr li = false := by
        simpa using hch
      simp only [AddNeighbor, hm, hch', Bool.not_false, if_true] at h
      exact Or.inl h

theorem addNeighbor_hwAddr_none_witness :
    lookupStore ([] : Store) "10.0.0.5" = some ⟨[10, 0, 0, 5], 2, none⟩ ∨
      ((⟨[10, 0, 0, 5], 2, none⟩ : Neighbor).hardwareAddr = none ∧
        (neighborView ⟨[10, 0, 0, 5], 2, none⟩).hwAddr = "") := by
  exact addNeighbor_hwAddr_none (fun _ _ => true) [] [10, 0, 0, 5] 2 "10.0.0.5"
    ⟨[10, 0, 0, 5], 2, none⟩ (by decide)

end Neigh2Route
